import Mathlib

/-!
Verification of the response-caching layer of the `claude-code-plugin-klaviyo`
repository (Klaviyo CLI client, `scripts/klaviyo-client.ts` embedded in
`src/agents/klaviyo-marketing-manager.md`, and `src/scripts/cli.ts`).

The cache library itself (`PluginCache`, `TTL`, `createCacheKey`) is imported
by the client from the external package `@local/plugin-cache` and its code is
not part of this repository; those definitions are modelled from the
specification (sections 3, 4.1-4.4) and are marked `Modelled from the spec:`
in their doc comments.  Everything else (which parameters each resource
operation embeds in its cache key, the TTL class each operation passes, the
pagination loop `getAllFlowActions`, `findPlacedOrderMetricId`, and the
`get-campaign-report` CLI command) is translated directly from the source.

Time is an explicit natural-number parameter (milliseconds); producers are
modelled as `Except String V` values together with an `invoked` flag returned
by the orchestrator, so "the producer is invoked exactly once" is a statement
about that flag.
-/

/-- Lexicographic comparison of character lists by code point (shorter list
first on ties).  Used to give cache-key parameter lists a canonical order. -/
def charListLe : List Char → List Char → Bool
  | [], _ => true
  | _ :: _, [] => false
  | a :: as, b :: bs =>
    if a.toNat < b.toNat then true
    else if b.toNat < a.toNat then false
    else charListLe as bs

/-- Lexicographic comparison of strings by code point. -/
def strLe (a b : String) : Bool :=
  charListLe a.data b.data

theorem charListLe_total : ∀ a b : List Char, charListLe a b = true ∨ charListLe b a = true
  | [], _ => Or.inl rfl
  | _ :: _, [] => Or.inr rfl
  | a :: as, b :: bs => by
    by_cases h1 : a.toNat < b.toNat
    · left; simp [charListLe, h1]
    · by_cases h2 : b.toNat < a.toNat
      · right; simp [charListLe, h1, h2]
      · rcases charListLe_total as bs with h | h
        · left; simp [charListLe, h1, h2, h]
        · right; simp [charListLe, h1, h2, h]

theorem charListLe_antisymm :
    ∀ a b : List Char, charListLe a b = true → charListLe b a = true → a = b
  | [], [], _, _ => rfl
  | [], _ :: _, _, h2 => by simp [charListLe] at h2
  | _ :: _, [], h1, _ => by simp [charListLe] at h1
  | a :: as, b :: bs, h1, h2 => by
    by_cases hab : a.toNat < b.toNat
    · simp [charListLe, hab, Nat.lt_asymm hab] at h2
    · by_cases hba : b.toNat < a.toNat
      · simp [charListLe, hab, hba] at h1
      · have hEq : a.toNat = b.toNat := by omega
        have hTail := charListLe_antisymm as bs
          (by simpa [charListLe, hab, hba] using h1)
          (by simpa [charListLe, hab, hba] using h2)
        rw [show a = b from Char.ext (UInt32.ext hEq), hTail]

theorem charListLe_trans :
    ∀ a b c : List Char, charListLe a b = true → charListLe b c = true → charListLe a c = true
  | [], _, _, _, _ => rfl
  | _ :: _, [], _, h1, _ => by simp [charListLe] at h1
  | _ :: _, _ :: _, [], _, h2 => by simp [charListLe] at h2
  | a :: as, b :: bs, c :: cs, h1, h2 => by
    by_cases hab : a.toNat < b.toNat
    · by_cases hbc : b.toNat < c.toNat
      · have hac : a.toNat < c.toNat := Nat.lt_trans hab hbc
        simp [charListLe, hac]
      · by_cases hcb : c.toNat < b.toNat
        · simp [charListLe, hbc, hcb] at h2
        · have hac : a.toNat < c.toNat := by omega
          simp [charListLe, hac]
    · by_cases hba : b.toNat < a.toNat
      · simp [charListLe, hab, hba] at h1
      · by_cases hbc : b.toNat < c.toNat
        · have hac : a.toNat < c.toNat := by omega
          simp [charListLe, hac]
        · by_cases hcb : c.toNat < b.toNat
          · simp [charListLe, hbc, hcb] at h2
          · have hac : ¬ a.toNat < c.toNat := by omega
            have hca : ¬ c.toNat < a.toNat := by omega
            have hTail := charListLe_trans as bs cs
              (by simpa [charListLe, hab, hba] using h1)
              (by simpa [charListLe, hbc, hcb] using h2)
            simp [charListLe, hac, hca, hTail]

theorem strLe_total (a b : String) : strLe a b = true ∨ strLe b a = true :=
  charListLe_total a.data b.data

theorem strLe_antisymm {a b : String} (h1 : strLe a b = true) (h2 : strLe b a = true) : a = b :=
  String.ext (charListLe_antisymm a.data b.data h1 h2)

theorem strLe_trans {a b c : String} (h1 : strLe a b = true) (h2 : strLe b c = true) :
    strLe a c = true :=
  charListLe_trans a.data b.data c.data h1 h2

/-- Canonical order on cache-key parameter entries: by parameter name first,
then by value. -/
def pairLe (a b : String × String) : Bool :=
  if a.1 = b.1 then strLe a.2 b.2 else strLe a.1 b.1

/-- The canonical order on parameter entries, as a relation. -/
def paramOrder (a b : String × String) : Prop :=
  pairLe a b = true

instance : DecidableRel paramOrder :=
  fun a b => inferInstanceAs (Decidable (pairLe a b = true))

instance : IsTotal (String × String) paramOrder := by
  constructor
  intro a b
  by_cases h : a.1 = b.1
  · rcases strLe_total a.2 b.2 with hv | hv
    · exact Or.inl (by simp [paramOrder, pairLe, h, hv])
    · exact Or.inr (by simp [paramOrder, pairLe, h.symm, hv])
  · rcases strLe_total a.1 b.1 with hn | hn
    · exact Or.inl (by simp [paramOrder, pairLe, h, hn])
    · exact Or.inr (by simp [paramOrder, pairLe, Ne.symm h, hn])

instance : IsTrans (String × String) paramOrder := by
  constructor
  intro a b c h1 h2
  unfold paramOrder pairLe at h1 h2 ⊢
  by_cases hab : a.1 = b.1
  · rw [if_pos hab] at h1
    by_cases hbc : b.1 = c.1
    · rw [if_pos hbc] at h2
      rw [if_pos (hab.trans hbc)]
      exact strLe_trans h1 h2
    · rw [if_neg hbc] at h2
      rw [if_neg (fun hac => hbc (hab ▸ hac)), hab]
      exact h2
  · rw [if_neg hab] at h1
    by_cases hbc : b.1 = c.1
    · rw [if_neg (fun hac => hab (hac.trans hbc.symm)), ← hbc]
      exact h1
    · rw [if_neg hbc] at h2
      by_cases hac : a.1 = c.1
      · exact absurd (strLe_antisymm h2 (hac ▸ h1)) hbc
      · rw [if_neg hac]
        exact strLe_trans h1 h2

instance : IsAntisymm (String × String) paramOrder := by
  constructor
  intro a b h1 h2
  unfold paramOrder pairLe at h1 h2
  by_cases hab : a.1 = b.1
  · rw [if_pos hab] at h1
    rw [if_pos hab.symm] at h2
    have hv : a.2 = b.2 := strLe_antisymm h1 h2
    obtain ⟨a1, a2⟩ := a
    obtain ⟨b1, b2⟩ := b
    simp only at hab hv
    rw [hab, hv]
  · rw [if_neg hab] at h1
    rw [if_neg (Ne.symm hab)] at h2
    exact absurd (strLe_antisymm h1 h2) hab

/-- Modelled from the spec: the cache key builder `createCacheKey` of the
external `@local/plugin-cache` package (not in this repository) filters out
parameters whose value is absent.  A parameter bag entry maps a name to a
string value or `undefined` (`none`). -/
def filterDefined (ps : List (String × Option String)) : List (String × String) :=
  ps.filterMap fun p => p.2.map fun v => (p.1, v)

/-- Modelled from the spec: the remaining defined entries are ordered
canonically (lexicographically). -/
def canonParams (ps : List (String × Option String)) : List (String × String) :=
  List.insertionSort paramOrder (filterDefined ps)

/-- Modelled from the spec: a cache key is uniquely determined by the resource
name token together with the canonicalized parameter encoding.  Because the
spec requires the serialization to be injective on that data ("calls with any
differing defined parameter MUST produce a different key"), the key is
modelled as the pair of the resource token and the canonical parameter list
rather than as their concatenated string. -/
structure CacheKey where
  resource : String
  params : List (String × String)
deriving DecidableEq

/-- Modelled from the spec: `createCacheKey(resource, params)` from
`@local/plugin-cache` (not in this repository): drop absent entries, sort the
rest canonically, combine with the resource token. -/
def createCacheKey (resource : String) (params : List (String × Option String)) : CacheKey :=
  ⟨resource, canonParams params⟩

theorem canonParams_eq_of_perm {p1 p2 : List (String × Option String)}
    (h : List.Perm (filterDefined p1) (filterDefined p2)) :
    canonParams p1 = canonParams p2 := by
  apply List.eq_of_perm_of_sorted (r := paramOrder)
  · exact ((List.perm_insertionSort paramOrder (filterDefined p1)).trans h).trans
      (List.perm_insertionSort paramOrder (filterDefined p2)).symm
  · exact List.sorted_insertionSort paramOrder (filterDefined p1)
  · exact List.sorted_insertionSort paramOrder (filterDefined p2)

/-- C8: the cache key builder is a pure function of the resource name and the
parameter bag up to dropping undefined entries and reordering: two bags whose
defined entries are permutations of each other yield the same key, and a bag
that is empty after filtering yields a key determined solely by the resource
token. -/
theorem createCacheKey_deterministic :
    (∀ (r : String) (p1 p2 : List (String × Option String)),
      List.Perm (filterDefined p1) (filterDefined p2) →
      createCacheKey r p1 = createCacheKey r p2) ∧
    (∀ (r : String) (p : List (String × Option String)),
      filterDefined p = [] → createCacheKey r p = ⟨r, []⟩) := by
  constructor
  · intro r p1 p2 h
    unfold createCacheKey
    rw [canonParams_eq_of_perm h]
  · intro r p h
    unfold createCacheKey canonParams
    rw [h]
    rfl

/-- Witness for C8 at concrete inputs: reordering a bag and dropping an
undefined cursor leaves the key unchanged, and a bag with only undefined
entries keys on the resource token alone. -/
theorem createCacheKey_deterministic_witness :
    createCacheKey "campaigns"
        [("filter", some "f1"), ("channel", some "email"), ("cursor", none)] =
      createCacheKey "campaigns"
        [("channel", some "email"), ("filter", some "f1")] ∧
    createCacheKey "segments" [("cursor", none)] = ⟨"segments", []⟩ :=
  ⟨createCacheKey_deterministic.1 "campaigns" _ _ (by decide),
   createCacheKey_deterministic.2 "segments" [("cursor", none)] (by decide)⟩

/-- Modelled from the spec: a cache entry (section 3) holds the cached value,
the absolute expiry timestamp, and the insertion timestamp. -/
structure CacheEntry (V : Type) where
  value : V
  expiresAt : Nat
  insertedAt : Nat
deriving DecidableEq

/-- Modelled from the spec: the process-wide state of the `PluginCache` store
from `@local/plugin-cache` (not in this repository): a mapping from keys to
entries, cumulative hit and miss counters, and a global disabled flag. -/
structure PluginCache (V : Type) where
  entries : CacheKey → Option (CacheEntry V)
  hits : Nat
  misses : Nat
  disabled : Bool

/-- A freshly created store: empty mapping, zero counters, enabled. -/
def emptyCache {V : Type} : PluginCache V :=
  ⟨fun _ => none, 0, 0, false⟩

/-- Modelled from the spec: `get` (section 4.3) returns the stored value if an
entry exists and is unexpired (valid iff current time < `expiresAt`); while
the store is disabled it always reports absent. -/
def PluginCache.get {V : Type} (s : PluginCache V) (now : Nat) (k : CacheKey) : Option V :=
  if s.disabled then none
  else
    match s.entries k with
    | some e => if now < e.expiresAt then some e.value else none
    | none => none

/-- Modelled from the spec: `set` (section 4.3) stores the value with
`expiresAt = now + ttl`, overwriting unconditionally; while the store is
disabled it is a no-op that preserves existing entries. -/
def PluginCache.set {V : Type} (s : PluginCache V) (now : Nat) (k : CacheKey) (v : V)
    (ttl : Nat) : PluginCache V :=
  if s.disabled then s
  else
    { s with entries := fun kk => if kk = k then some ⟨v, now + ttl, now⟩ else s.entries kk }

/-- Modelled from the spec: `disable` toggles the bypass flag on without
clearing entries. -/
def PluginCache.disable {V : Type} (s : PluginCache V) : PluginCache V :=
  { s with disabled := true }

/-- Modelled from the spec: `enable` toggles the bypass flag back off. -/
def PluginCache.enable {V : Type} (s : PluginCache V) : PluginCache V :=
  { s with disabled := false }

/-- Result of one `getOrFetch` call: the value or propagated failure, the
updated store, and whether the producer was invoked during the call. -/
structure FetchResult (V : Type) where
  result : Except String V
  store : PluginCache V
  invoked : Bool

/-- Modelled from the spec: the fetch-or-populate orchestrator `getOrFetch`
(section 4.4).  If `bypassCache` is true or the store is disabled, the
producer runs and the store is neither read nor written.  Otherwise a valid
entry is a hit (producer not invoked); a miss increments the miss counter,
invokes the producer exactly once, and stores a successful result under the
key; a producer failure propagates unchanged with nothing written. -/
def PluginCache.getOrFetch {V : Type} (s : PluginCache V) (now : Nat) (k : CacheKey)
    (producer : Except String V) (ttl : Nat) (bypassCache : Bool) : FetchResult V :=
  if bypassCache || s.disabled then
    ⟨producer, s, true⟩
  else
    match s.get now k with
    | some v => ⟨Except.ok v, { s with hits := s.hits + 1 }, false⟩
    | none =>
      match producer with
      | Except.ok v =>
          ⟨Except.ok v, PluginCache.set { s with misses := s.misses + 1 } now k v ttl, true⟩
      | Except.error e => ⟨Except.error e, { s with misses := s.misses + 1 }, true⟩

theorem set_hits {V : Type} (s : PluginCache V) (now : Nat) (k : CacheKey) (v : V) (ttl : Nat) :
    (s.set now k v ttl).hits = s.hits := by
  by_cases h : s.disabled <;> simp [PluginCache.set, h]

theorem set_misses {V : Type} (s : PluginCache V) (now : Nat) (k : CacheKey) (v : V)
    (ttl : Nat) : (s.set now k v ttl).misses = s.misses := by
  by_cases h : s.disabled <;> simp [PluginCache.set, h]

theorem set_disabled {V : Type} (s : PluginCache V) (now : Nat) (k : CacheKey) (v : V)
    (ttl : Nat) : (s.set now k v ttl).disabled = s.disabled := by
  by_cases h : s.disabled <;> simp [PluginCache.set, h]

theorem entries_set_same {V : Type} (s : PluginCache V) (now : Nat) (k : CacheKey) (v : V)
    (ttl : Nat) (hd : s.disabled = false) :
    (s.set now k v ttl).entries k = some ⟨v, now + ttl, now⟩ := by
  simp [PluginCache.set, hd]

theorem entries_set_other {V : Type} (s : PluginCache V) (now : Nat) (k k2 : CacheKey) (v : V)
    (ttl : Nat) (hne : k2 ≠ k) : (s.set now k v ttl).entries k2 = s.entries k2 := by
  by_cases h : s.disabled <;> simp [PluginCache.set, h, hne]

theorem get_set_same {V : Type} (s : PluginCache V) (now now2 : Nat) (k : CacheKey) (v : V)
    (ttl : Nat) (hd : s.disabled = false) :
    (s.set now k v ttl).get now2 k = if now2 < now + ttl then some v else none := by
  simp [PluginCache.set, PluginCache.get, hd]

theorem get_set_other {V : Type} (s : PluginCache V) (now now2 : Nat) (k k2 : CacheKey) (v : V)
    (ttl : Nat) (hne : k2 ≠ k) : (s.set now k v ttl).get now2 k2 = s.get now2 k2 := by
  by_cases h : s.disabled <;> simp [PluginCache.set, PluginCache.get, h, hne]

theorem get_miss_bump {V : Type} (s : PluginCache V) (now : Nat) (k : CacheKey) :
    PluginCache.get { s with misses := s.misses + 1 } now k = s.get now k := rfl

theorem get_hit_bump {V : Type} (s : PluginCache V) (now : Nat) (k : CacheKey) :
    PluginCache.get { s with hits := s.hits + 1 } now k = s.get now k := rfl

theorem getOrFetch_bypass {V : Type} (s : PluginCache V) (now : Nat) (k : CacheKey)
    (producer : Except String V) (ttl : Nat) (bypass : Bool)
    (h : bypass = true ∨ s.disabled = true) :
    s.getOrFetch now k producer ttl bypass = ⟨producer, s, true⟩ := by
  rcases h with h | h <;> simp [PluginCache.getOrFetch, h]

theorem getOrFetch_hit {V : Type} (s : PluginCache V) (now : Nat) (k : CacheKey)
    (producer : Except String V) (ttl : Nat) (v : V) (hd : s.disabled = false)
    (h : s.get now k = some v) :
    s.getOrFetch now k producer ttl false = ⟨Except.ok v, { s with hits := s.hits + 1 }, false⟩ := by
  simp [PluginCache.getOrFetch, hd, h]

theorem getOrFetch_miss_ok {V : Type} (s : PluginCache V) (now : Nat) (k : CacheKey) (v : V)
    (ttl : Nat) (hd : s.disabled = false) (h : s.get now k = none) :
    s.getOrFetch now k (Except.ok v) ttl false =
      ⟨Except.ok v, PluginCache.set { s with misses := s.misses + 1 } now k v ttl, true⟩ := by
  simp [PluginCache.getOrFetch, hd, h]

theorem getOrFetch_miss_error {V : Type} (s : PluginCache V) (now : Nat) (k : CacheKey)
    (e : String) (ttl : Nat) (hd : s.disabled = false) (h : s.get now k = none) :
    s.getOrFetch now k (Except.error e) ttl false =
      ⟨Except.error e, { s with misses := s.misses + 1 }, true⟩ := by
  simp [PluginCache.getOrFetch, hd, h]

/-- C2: with the store enabled, no bypass, the key not validly cached, and a
positive TTL, two immediate `getOrFetch` calls invoke the producer exactly
once (first call only), the second call returns the first call's result, and
across the two calls the hit counter and the miss counter each grow by one. -/
theorem getOrFetch_hit_reuse {V : Type} (s : PluginCache V) (now : Nat) (k : CacheKey)
    (v : V) (T : Nat) (hd : s.disabled = false) (habs : s.get now k = none) (hT : 0 < T) :
    (s.getOrFetch now k (Except.ok v) T false).invoked = true ∧
    ((s.getOrFetch now k (Except.ok v) T false).store.getOrFetch now k (Except.ok v) T
        false).invoked = false ∧
    (s.getOrFetch now k (Except.ok v) T false).result = Except.ok v ∧
    ((s.getOrFetch now k (Except.ok v) T false).store.getOrFetch now k (Except.ok v) T
        false).result = (s.getOrFetch now k (Except.ok v) T false).result ∧
    ((s.getOrFetch now k (Except.ok v) T false).store.getOrFetch now k (Except.ok v) T
        false).store.hits = s.hits + 1 ∧
    ((s.getOrFetch now k (Except.ok v) T false).store.getOrFetch now k (Except.ok v) T
        false).store.misses = s.misses + 1 := by
  have hd1 : (PluginCache.set { s with misses := s.misses + 1 } now k v T).disabled = false := by
    rw [set_disabled]
    exact hd
  have h1 := getOrFetch_miss_ok s now k v T hd habs
  have hdm : ({ s with misses := s.misses + 1 } : PluginCache V).disabled = false := hd
  have hget : (PluginCache.set { s with misses := s.misses + 1 } now k v T).get now k =
      some v := by
    rw [get_set_same _ _ _ _ _ _ hdm]
    rw [if_pos (by omega)]
  have h2 := getOrFetch_hit _ now k (Except.ok v) T v hd1 hget
  rw [h1]
  simp only [h2]
  simp [set_hits, set_misses]

/-- Witness for C2: on a fresh store, fetching the same campaign key twice
with TTL 1 hits the cache the second time. -/
theorem getOrFetch_hit_reuse_witness :
    ((emptyCache : PluginCache Nat).getOrFetch 0 (createCacheKey "campaign" [("id", some "X")])
        (Except.ok 7) 1 false).invoked = true ∧
    (((emptyCache : PluginCache Nat).getOrFetch 0 (createCacheKey "campaign" [("id", some "X")])
        (Except.ok 7) 1 false).store.getOrFetch 0
        (createCacheKey "campaign" [("id", some "X")]) (Except.ok 7) 1 false).invoked = false ∧
    ((emptyCache : PluginCache Nat).getOrFetch 0 (createCacheKey "campaign" [("id", some "X")])
        (Except.ok 7) 1 false).result = Except.ok 7 ∧
    (((emptyCache : PluginCache Nat).getOrFetch 0 (createCacheKey "campaign" [("id", some "X")])
        (Except.ok 7) 1 false).store.getOrFetch 0
        (createCacheKey "campaign" [("id", some "X")]) (Except.ok 7) 1 false).result =
      ((emptyCache : PluginCache Nat).getOrFetch 0 (createCacheKey "campaign" [("id", some "X")])
        (Except.ok 7) 1 false).result ∧
    (((emptyCache : PluginCache Nat).getOrFetch 0 (createCacheKey "campaign" [("id", some "X")])
        (Except.ok 7) 1 false).store.getOrFetch 0
        (createCacheKey "campaign" [("id", some "X")]) (Except.ok 7) 1 false).store.hits =
      (emptyCache : PluginCache Nat).hits + 1 ∧
    (((emptyCache : PluginCache Nat).getOrFetch 0 (createCacheKey "campaign" [("id", some "X")])
        (Except.ok 7) 1 false).store.getOrFetch 0
        (createCacheKey "campaign" [("id", some "X")]) (Except.ok 7) 1 false).store.misses =
      (emptyCache : PluginCache Nat).misses + 1 :=
  getOrFetch_hit_reuse emptyCache 0 (createCacheKey "campaign" [("id", some "X")]) 7 1
    rfl rfl (by decide)

/-- C3: an entry stored at time `t0` with TTL `T` is still physically present
at any `now ≥ t0 + T` but logically absent (`get` reports none), and a
subsequent `getOrFetch` on the same key invokes the producer again as a cache
miss. -/
theorem ttl_expiry {V : Type} (s : PluginCache V) (t0 T now : Nat) (k : CacheKey) (v : V)
    (producer : Except String V) (ttl2 : Nat) (hd : s.disabled = false)
    (hexp : t0 + T ≤ now) :
    (s.set t0 k v T).entries k = some ⟨v, t0 + T, t0⟩ ∧
    (s.set t0 k v T).get now k = none ∧
    (((s.set t0 k v T).getOrFetch now k producer ttl2 false).invoked = true ∧
      ((s.set t0 k v T).getOrFetch now k producer ttl2 false).store.misses = s.misses + 1) := by
  have h1 := entries_set_same s t0 k v T hd
  have hds : (s.set t0 k v T).disabled = false := by
    rw [set_disabled]
    exact hd
  have h2 : (s.set t0 k v T).get now k = none := by
    rw [get_set_same s t0 now k v T hd, if_neg (by omega)]
  refine ⟨h1, h2, ?_⟩
  cases producer with
  | ok w =>
    rw [getOrFetch_miss_ok _ now k w ttl2 hds h2]
    exact ⟨rfl, by simp [set_misses]⟩
  | error e =>
    rw [getOrFetch_miss_error _ now k e ttl2 hds h2]
    exact ⟨rfl, by simp [set_misses]⟩

/-- Witness for C3: a flows entry stored at time 0 with TTL 5 is expired at
time 5; refetching at time 5 is a miss that invokes the producer again. -/
theorem ttl_expiry_witness :
    ((emptyCache : PluginCache Nat).set 0 (createCacheKey "flows" []) 1 5).entries
        (createCacheKey "flows" []) = some ⟨1, 0 + 5, 0⟩ ∧
    ((emptyCache : PluginCache Nat).set 0 (createCacheKey "flows" []) 1 5).get 5
        (createCacheKey "flows" []) = none ∧
    ((((emptyCache : PluginCache Nat).set 0 (createCacheKey "flows" []) 1 5).getOrFetch 5
        (createCacheKey "flows" []) (Except.ok 2) 5 false).invoked = true ∧
      (((emptyCache : PluginCache Nat).set 0 (createCacheKey "flows" []) 1 5).getOrFetch 5
        (createCacheKey "flows" []) (Except.ok 2) 5 false).store.misses =
        (emptyCache : PluginCache Nat).misses + 1) :=
  ttl_expiry emptyCache 0 5 5 (createCacheKey "flows" []) 1 (Except.ok 2) 5 rfl (by decide)

/-- C4: with `bypassCache` true or the store disabled, `getOrFetch` invokes
the producer, returns its result, and leaves the store untouched (no read, no
write); while disabled, `get` reports absent and `set` is a no-op; and after
re-enabling, a pre-disable entry that has not expired is still returned. -/
theorem bypass_disable_frame {V : Type} (s : PluginCache V) (now : Nat) (k : CacheKey)
    (producer : Except String V) (ttl : Nat) :
    (∀ bypass : Bool, bypass = true ∨ s.disabled = true →
      s.getOrFetch now k producer ttl bypass = ⟨producer, s, true⟩) ∧
    s.disable.get now k = none ∧
    (∀ (v : V) (ttl2 : Nat), s.disable.set now k v ttl2 = s.disable) ∧
    (∀ v : V, s.disabled = false → s.get now k = some v →
      s.disable.enable.get now k = some v) := by
  refine ⟨fun bypass h => getOrFetch_bypass s now k producer ttl bypass h, ?_, ?_, ?_⟩
  · simp [PluginCache.disable, PluginCache.get]
  · intro v ttl2
    simp [PluginCache.disable, PluginCache.set]
  · intro v hd h
    simp only [PluginCache.get, hd, if_false, Bool.false_eq_true] at h
    simpa [PluginCache.disable, PluginCache.enable, PluginCache.get] using h

/-- Witness for C4: a list entry stored before disabling survives a
disable/set/get/enable round trip, and a bypassed call leaves the store
unchanged. -/
theorem bypass_disable_frame_witness :
    ((emptyCache : PluginCache Nat).set 0 (createCacheKey "list" [("id", some "L")]) 9
        10).getOrFetch 3 (createCacheKey "list" [("id", some "L")]) (Except.ok 5) 10 true =
      ⟨Except.ok 5, (emptyCache : PluginCache Nat).set 0
        (createCacheKey "list" [("id", some "L")]) 9 10, true⟩ ∧
    ((emptyCache : PluginCache Nat).set 0 (createCacheKey "list" [("id", some "L")]) 9
        10).disable.get 3 (createCacheKey "list" [("id", some "L")]) = none ∧
    ((emptyCache : PluginCache Nat).set 0 (createCacheKey "list" [("id", some "L")]) 9
        10).disable.set 3 (createCacheKey "list" [("id", some "L")]) 7 10 =
      ((emptyCache : PluginCache Nat).set 0 (createCacheKey "list" [("id", some "L")]) 9
        10).disable ∧
    ((emptyCache : PluginCache Nat).set 0 (createCacheKey "list" [("id", some "L")]) 9
        10).disable.enable.get 3 (createCacheKey "list" [("id", some "L")]) = some 9 := by
  obtain ⟨h1, h2, h3, h4⟩ := bypass_disable_frame
    ((emptyCache : PluginCache Nat).set 0 (createCacheKey "list" [("id", some "L")]) 9 10) 3
    (createCacheKey "list" [("id", some "L")]) (Except.ok 5) 10
  exact ⟨h1 true (Or.inl rfl), h2, h3 7 10, h4 9 (by decide) (by decide)⟩

/-- C5: a producer failure propagates unchanged out of `getOrFetch`, nothing
is written to the store (the entry mapping is untouched), the producer ran
exactly once with no retry, and a subsequent call on the same key is still a
miss. -/
theorem failure_non_pollution {V : Type} (s : PluginCache V) (now : Nat) (k : CacheKey)
    (ttl : Nat) (e : String) (hd : s.disabled = false) (habs : s.get now k = none) :
    (s.getOrFetch now k (Except.error e) ttl false).result = Except.error e ∧
    (s.getOrFetch now k (Except.error e) ttl false).store.entries = s.entries ∧
    (s.getOrFetch now k (Except.error e) ttl false).invoked = true ∧
    (s.getOrFetch now k (Except.error e) ttl false).store.misses = s.misses + 1 ∧
    ∀ (producer : Except String V) (ttl2 : Nat),
      ((s.getOrFetch now k (Except.error e) ttl false).store.getOrFetch now k producer ttl2
          false).invoked = true ∧
      ((s.getOrFetch now k (Except.error e) ttl false).store.getOrFetch now k producer ttl2
          false).store.misses = s.misses + 2 := by
  have h1 := getOrFetch_miss_error s now k e ttl hd habs
  rw [h1]
  have hdm : ({ s with misses := s.misses + 1 } : PluginCache V).disabled = false := hd
  have habs2 : PluginCache.get { s with misses := s.misses + 1 } now k = none := by
    rw [get_miss_bump]
    exact habs
  refine ⟨rfl, rfl, rfl, rfl, ?_⟩
  intro producer ttl2
  cases producer with
  | ok w =>
    rw [getOrFetch_miss_ok _ now k w ttl2 hdm habs2]
    exact ⟨rfl, by simp [set_misses]⟩
  | error e2 =>
    rw [getOrFetch_miss_error _ now k e2 ttl2 hdm habs2]
    exact ⟨rfl, rfl⟩

/-- Witness for C5: a failed profile fetch propagates the error, stores
nothing, and the retry is again a miss. -/
theorem failure_non_pollution_witness :
    ((emptyCache : PluginCache Nat).getOrFetch 0
        (createCacheKey "profiles" [("filter", some "f")]) (Except.error "boom") 5
        false).result = Except.error "boom" ∧
    ((emptyCache : PluginCache Nat).getOrFetch 0
        (createCacheKey "profiles" [("filter", some "f")]) (Except.error "boom") 5
        false).store.entries = (emptyCache : PluginCache Nat).entries ∧
    ((emptyCache : PluginCache Nat).getOrFetch 0
        (createCacheKey "profiles" [("filter", some "f")]) (Except.error "boom") 5
        false).invoked = true ∧
    ((emptyCache : PluginCache Nat).getOrFetch 0
        (createCacheKey "profiles" [("filter", some "f")]) (Except.error "boom") 5
        false).store.misses = (emptyCache : PluginCache Nat).misses + 1 ∧
    ((((emptyCache : PluginCache Nat).getOrFetch 0
          (createCacheKey "profiles" [("filter", some "f")]) (Except.error "boom") 5
          false).store.getOrFetch 0 (createCacheKey "profiles" [("filter", some "f")])
          (Except.ok 3) 5 false).invoked = true ∧
      (((emptyCache : PluginCache Nat).getOrFetch 0
          (createCacheKey "profiles" [("filter", some "f")]) (Except.error "boom") 5
          false).store.getOrFetch 0 (createCacheKey "profiles" [("filter", some "f")])
          (Except.ok 3) 5 false).store.misses = (emptyCache : PluginCache Nat).misses + 2) := by
  obtain ⟨h1, h2, h3, h4, h5⟩ := failure_non_pollution (emptyCache : PluginCache Nat) 0
    (createCacheKey "profiles" [("filter", some "f")]) 5 "boom" rfl rfl
  exact ⟨h1, h2, h3, h4, h5 (Except.ok 3) 5⟩

namespace TTL

/-- Modelled from the spec: TTL class for volatile/report data, five minutes
in milliseconds. -/
def FIVE_MINUTES : Nat := 5 * 60 * 1000

/-- Modelled from the spec: TTL class for frequently-changing entities,
fifteen minutes in milliseconds. -/
def FIFTEEN_MINUTES : Nat := 15 * 60 * 1000

/-- Modelled from the spec: TTL class for slow-changing entities, one hour in
milliseconds. -/
def HOUR : Nat := 60 * 60 * 1000

end TTL

/-- The cache-consulting resource operations of `KlaviyoClient`. -/
inductive ResourceOp
  | getCampaigns
  | getCampaign
  | getCampaignReport
  | getFlows
  | getFlow
  | getFlowActions
  | getFlowReport
  | getSegments
  | getSegment
  | getLists
  | getList
  | getProfiles
  | getProfile
  | getMetrics
  | getMetric
  | getAccount
deriving DecidableEq

/-- The TTL class each resource operation passes to `cache.getOrFetch`,
transcribed from the sixteen call sites in `scripts/klaviyo-client.ts`. -/
def opTTL : ResourceOp → Nat
  | ResourceOp.getCampaigns => TTL.FIFTEEN_MINUTES
  | ResourceOp.getCampaign => TTL.FIFTEEN_MINUTES
  | ResourceOp.getCampaignReport => TTL.FIVE_MINUTES
  | ResourceOp.getFlows => TTL.FIFTEEN_MINUTES
  | ResourceOp.getFlow => TTL.FIFTEEN_MINUTES
  | ResourceOp.getFlowActions => TTL.FIFTEEN_MINUTES
  | ResourceOp.getFlowReport => TTL.FIVE_MINUTES
  | ResourceOp.getSegments => TTL.HOUR
  | ResourceOp.getSegment => TTL.HOUR
  | ResourceOp.getLists => TTL.HOUR
  | ResourceOp.getList => TTL.HOUR
  | ResourceOp.getProfiles => TTL.FIFTEEN_MINUTES
  | ResourceOp.getProfile => TTL.FIFTEEN_MINUTES
  | ResourceOp.getMetrics => TTL.HOUR
  | ResourceOp.getMetric => TTL.HOUR
  | ResourceOp.getAccount => TTL.HOUR

/-- C9: the statically fixed TTL classes match the volatility assignment:
FIVE_MINUTES for the report operations, FIFTEEN_MINUTES for campaign, flow,
flow-action and profile operations, and HOUR for segment, list, metric and
account operations. -/
theorem ttl_class_assignment :
    (opTTL ResourceOp.getCampaignReport = TTL.FIVE_MINUTES ∧
      opTTL ResourceOp.getFlowReport = TTL.FIVE_MINUTES) ∧
    (opTTL ResourceOp.getCampaigns = TTL.FIFTEEN_MINUTES ∧
      opTTL ResourceOp.getCampaign = TTL.FIFTEEN_MINUTES ∧
      opTTL ResourceOp.getFlows = TTL.FIFTEEN_MINUTES ∧
      opTTL ResourceOp.getFlow = TTL.FIFTEEN_MINUTES ∧
      opTTL ResourceOp.getFlowActions = TTL.FIFTEEN_MINUTES ∧
      opTTL ResourceOp.getProfiles = TTL.FIFTEEN_MINUTES ∧
      opTTL ResourceOp.getProfile = TTL.FIFTEEN_MINUTES) ∧
    (opTTL ResourceOp.getSegments = TTL.HOUR ∧
      opTTL ResourceOp.getSegment = TTL.HOUR ∧
      opTTL ResourceOp.getLists = TTL.HOUR ∧
      opTTL ResourceOp.getList = TTL.HOUR ∧
      opTTL ResourceOp.getMetrics = TTL.HOUR ∧
      opTTL ResourceOp.getMetric = TTL.HOUR ∧
      opTTL ResourceOp.getAccount = TTL.HOUR) :=
  ⟨⟨rfl, rfl⟩, ⟨rfl, rfl, rfl, rfl, rfl, rfl, rfl⟩, ⟨rfl, rfl, rfl, rfl, rfl, rfl, rfl⟩⟩

/-- The channel union type of `getCampaigns` ("email" | "sms" | "mobile_push"). -/
inductive Channel
  | email
  | sms
  | mobile_push
deriving DecidableEq

/-- String form of a channel, as used in the cache key and the filter. -/
def Channel.toParam : Channel → String
  | Channel.email => "email"
  | Channel.sms => "sms"
  | Channel.mobile_push => "mobile_push"

theorem channel_toParam_inj (a b : Channel) (h : a.toParam = b.toParam) : a = b := by
  cases a <;> cases b <;> first | rfl | exact absurd h (by decide)

/-- The options bag accepted by `getCampaigns`. -/
structure CampaignListOptions where
  channel : Option Channel
  filter : Option String
  pageSize : Option Nat
  cursor : Option String
deriving DecidableEq

/-- The cache key `getCampaigns` builds: `createCacheKey("campaigns",
{channel, filter, cursor})`, with the channel defaulted to email.  The
`pageSize` option is not passed to the key builder. -/
def getCampaignsCacheKey (o : CampaignListOptions) : CacheKey :=
  createCacheKey "campaigns"
    [("channel", some (o.channel.getD Channel.email).toParam),
     ("filter", o.filter),
     ("cursor", o.cursor)]

/-- The options bag accepted by `getFlows`. -/
structure FlowListOptions where
  filter : Option String
  pageSize : Option Nat
  cursor : Option String
deriving DecidableEq

/-- The cache key `getFlows` builds: `createCacheKey("flows", {filter,
cursor})`.  The `pageSize` option is not passed to the key builder. -/
def getFlowsCacheKey (o : FlowListOptions) : CacheKey :=
  createCacheKey "flows" [("filter", o.filter), ("cursor", o.cursor)]

theorem campaignsKey_lookup_channel (o : CampaignListOptions) :
    (getCampaignsCacheKey o).params.lookup "channel" =
      some (o.channel.getD Channel.email).toParam := by
  obtain ⟨ch, f, ps, cu⟩ := o
  cases f <;> cases cu <;> rfl

theorem campaignsKey_lookup_filter (o : CampaignListOptions) :
    (getCampaignsCacheKey o).params.lookup "filter" = o.filter := by
  obtain ⟨ch, f, ps, cu⟩ := o
  cases f <;> cases cu <;> rfl

theorem campaignsKey_lookup_cursor (o : CampaignListOptions) :
    (getCampaignsCacheKey o).params.lookup "cursor" = o.cursor := by
  obtain ⟨ch, f, ps, cu⟩ := o
  cases f <;> cases cu <;> rfl

theorem flowsKey_lookup_filter (o : FlowListOptions) :
    (getFlowsCacheKey o).params.lookup "filter" = o.filter := by
  obtain ⟨f, ps, cu⟩ := o
  cases f <;> cases cu <;> rfl

theorem flowsKey_lookup_cursor (o : FlowListOptions) :
    (getFlowsCacheKey o).params.lookup "cursor" = o.cursor := by
  obtain ⟨f, ps, cu⟩ := o
  cases f <;> cases cu <;> rfl

/-- Counterexample to C1: two `getCampaigns` calls (and two `getFlows` calls)
that differ only in the defined `pageSize` parameter produce the SAME cache
key, because the source embeds only channel, filter and cursor (respectively
filter and cursor) in the key. -/
theorem pageSize_key_collision :
    getCampaignsCacheKey ⟨some Channel.email, some "status", some 10, some "cur"⟩ =
      getCampaignsCacheKey ⟨some Channel.email, some "status", some 20, some "cur"⟩ ∧
    (⟨some Channel.email, some "status", some 10, some "cur"⟩ : CampaignListOptions).pageSize ≠
      (⟨some Channel.email, some "status", some 20, some "cur"⟩ :
        CampaignListOptions).pageSize ∧
    getFlowsCacheKey ⟨some "f", some 10, none⟩ = getFlowsCacheKey ⟨some "f", some 20, none⟩ ∧
    (⟨some "f", some 10, none⟩ : FlowListOptions).pageSize ≠
      (⟨some "f", some 20, none⟩ : FlowListOptions).pageSize :=
  ⟨rfl, by decide, rfl, by decide⟩

/-- C1 as amended: for `getCampaigns` the key is sensitive to every parameter
actually embedded in it — effective channel, filter and cursor — and is
independent of `pageSize`; likewise for `getFlows` with filter and cursor. -/
theorem key_sensitivity_amended :
    (∀ o o2 : CampaignListOptions,
      o.channel.getD Channel.email ≠ o2.channel.getD Channel.email ∨
        o.filter ≠ o2.filter ∨ o.cursor ≠ o2.cursor →
      getCampaignsCacheKey o ≠ getCampaignsCacheKey o2) ∧
    (∀ o o2 : CampaignListOptions,
      o.channel = o2.channel → o.filter = o2.filter → o.cursor = o2.cursor →
      getCampaignsCacheKey o = getCampaignsCacheKey o2) ∧
    (∀ o o2 : FlowListOptions, o.filter ≠ o2.filter ∨ o.cursor ≠ o2.cursor →
      getFlowsCacheKey o ≠ getFlowsCacheKey o2) ∧
    (∀ o o2 : FlowListOptions, o.filter = o2.filter → o.cursor = o2.cursor →
      getFlowsCacheKey o = getFlowsCacheKey o2) := by
  refine ⟨?_, ?_, ?_, ?_⟩
  · intro o o2 h hEq
    rcases h with h | h | h
    · apply h
      apply channel_toParam_inj
      have := congrArg (fun k : CacheKey => k.params.lookup "channel") hEq
      simpa only [campaignsKey_lookup_channel, Option.some_inj] using this
    · apply h
      have := congrArg (fun k : CacheKey => k.params.lookup "filter") hEq
      simpa only [campaignsKey_lookup_filter] using this
    · apply h
      have := congrArg (fun k : CacheKey => k.params.lookup "cursor") hEq
      simpa only [campaignsKey_lookup_cursor] using this
  · intro o o2 h1 h2 h3
    obtain ⟨c1, f1, p1, u1⟩ := o
    obtain ⟨c2, f2, p2, u2⟩ := o2
    simp only at h1 h2 h3
    rw [getCampaignsCacheKey, getCampaignsCacheKey, h1, h2, h3]
  · intro o o2 h hEq
    rcases h with h | h
    · apply h
      have := congrArg (fun k : CacheKey => k.params.lookup "filter") hEq
      simpa only [flowsKey_lookup_filter] using this
    · apply h
      have := congrArg (fun k : CacheKey => k.params.lookup "cursor") hEq
      simpa only [flowsKey_lookup_cursor] using this
  · intro o o2 h1 h2
    obtain ⟨f1, p1, u1⟩ := o
    obtain ⟨f2, p2, u2⟩ := o2
    simp only at h1 h2
    rw [getFlowsCacheKey, getFlowsCacheKey, h1, h2]

/-- Witness for the amended C1: concrete campaign keys differ when the filter
differs and agree when only pageSize differs; concrete flow keys differ when
the cursor differs and agree when only pageSize differs. -/
theorem key_sensitivity_amended_witness :
    getCampaignsCacheKey ⟨none, some "a", some 10, none⟩ ≠
      getCampaignsCacheKey ⟨none, some "b", some 10, none⟩ ∧
    getCampaignsCacheKey ⟨none, some "a", some 10, none⟩ =
      getCampaignsCacheKey ⟨none, some "a", some 20, none⟩ ∧
    getFlowsCacheKey ⟨some "x", some 10, none⟩ ≠
      getFlowsCacheKey ⟨some "x", some 10, some "c"⟩ ∧
    getFlowsCacheKey ⟨some "x", some 10, none⟩ =
      getFlowsCacheKey ⟨some "x", some 20, none⟩ := by
  obtain ⟨h1, h2, h3, h4⟩ := key_sensitivity_amended
  exact ⟨h1 _ _ (Or.inr (Or.inl (by decide))), h2 _ _ rfl rfl rfl,
    h3 _ _ (Or.inr (by decide)), h4 _ _ rfl rfl⟩

/-- A single flow-actions page response: the data list plus the pagination
cursor extracted from `links.next` (`none` when the link is absent). -/
structure PageResponse (A : Type) where
  data : List A
  next : Option String
deriving DecidableEq

/-- The cursor-qualified cache key `getFlowActions` builds:
`createCacheKey("flow_actions", { flowId, cursor })`. -/
def flowActionsKey (flowId : String) (cursor : Option String) : CacheKey :=
  createCacheKey "flow_actions" [("flowId", some flowId), ("cursor", cursor)]

/-- One `getFlowActions(flowId, { cursor })` call: the network request `net`
is the producer, dispatched through the orchestrator under the
cursor-qualified key with TTL 15 minutes and bypass equal to the client's
`cacheDisabled` flag. -/
def getFlowActions {A : Type} (net : Option String → PageResponse A)
    (s : PluginCache (PageResponse A)) (now : Nat) (flowId : String)
    (cursor : Option String) (cacheDisabled : Bool) : FetchResult (PageResponse A) :=
  s.getOrFetch now (flowActionsKey flowId cursor) (Except.ok (net cursor))
    TTL.FIFTEEN_MINUTES cacheDisabled

/-- The do/while pagination loop of `getAllFlowActions`, with explicit fuel
(the source loop is unbounded; a `none` result models the loop still
running).  Returns the accumulated actions, the final store, the number of
page fetches (`getFlowActions` calls), and the number of underlying network
producer invocations. -/
def getAllFlowActionsAux {A : Type} (net : Option String → PageResponse A)
    (flowId : String) (cacheDisabled : Bool) (now : Nat) :
    Nat → PluginCache (PageResponse A) → Option String →
    Option (List A × PluginCache (PageResponse A) × Nat × Nat)
  | 0, _, _ => none
  | fuel + 1, s, cursor =>
    let r := getFlowActions net s now flowId cursor cacheDisabled
    match r.result with
    | Except.error _ => none
    | Except.ok page =>
      match page.next with
      | none => some (page.data, r.store, 1, if r.invoked then 1 else 0)
      | some c2 =>
        match getAllFlowActionsAux net flowId cacheDisabled now fuel r.store (some c2) with
        | none => none
        | some (rest, s2, fetches, netCalls) =>
          some (page.data ++ rest, s2, fetches + 1,
            netCalls + (if r.invoked then 1 else 0))

/-- `getAllFlowActions(flowId)`: run the pagination loop starting with no
cursor. -/
def getAllFlowActions {A : Type} (net : Option String → PageResponse A) (flowId : String)
    (cacheDisabled : Bool) (now fuel : Nat) (s : PluginCache (PageResponse A)) :
    Option (List A × PluginCache (PageResponse A) × Nat × Nat) :=
  getAllFlowActionsAux net flowId cacheDisabled now fuel s none

/-- The finite response chain the upstream yields from a given start cursor:
the pages in fetch order, each non-final page carrying the next page's
cursor, the final page carrying none. -/
inductive NetChain {A : Type} (net : Option String → PageResponse A) :
    Option String → List (PageResponse A) → Prop
  | last (c : Option String) (p : PageResponse A) :
      net c = p → p.next = none → NetChain net c [p]
  | step (c : Option String) (p : PageResponse A) (c2 : String)
      (rest : List (PageResponse A)) :
      net c = p → p.next = some c2 → NetChain net (some c2) rest →
      NetChain net c (p :: rest)

/-- The start cursor of each fetch along a page chain. -/
def chainCursors {A : Type} : Option String → List (PageResponse A) → List (Option String)
  | _, [] => []
  | c, p :: rest =>
    c ::
      (match p.next with
      | none => []
      | some c2 => chainCursors (some c2) rest)

theorem chain_unique {A : Type} {net : Option String → PageResponse A} {c : Option String}
    {l1 l2 : List (PageResponse A)} (h1 : NetChain net c l1) (h2 : NetChain net c l2) :
    l1 = l2 := by
  induction h1 generalizing l2 with
  | last c p hnet hnext =>
    subst hnet
    cases h2 with
    | last c q hnet2 hnext2 =>
      rw [← hnet2]
    | step c q c2 rest hnet2 hnext2 hch2 =>
      subst hnet2
      rw [hnext] at hnext2
      exact Option.noConfusion hnext2
  | step c p c2 rest hnet hnext hch ih =>
    subst hnet
    cases h2 with
    | last c q hnet2 hnext2 =>
      subst hnet2
      rw [hnext] at hnext2
      exact Option.noConfusion hnext2
    | step c q c22 rest2 hnet2 hnext2 hch2 =>
      subst hnet2
      rw [hnext] at hnext2
      have hc : c2 = c22 := Option.some_inj.mp hnext2
      subst hc
      rw [ih hch2]

theorem chain_suffix {A : Type} {net : Option String → PageResponse A} {c : Option String}
    {l : List (PageResponse A)} {d : Option String} (h : NetChain net c l)
    (hm : d ∈ chainCursors c l) : ∃ k, k < l.length ∧ NetChain net d (l.drop k) := by
  induction h with
  | last c p hnet hnext =>
    simp only [chainCursors, hnext, List.mem_singleton] at hm
    refine ⟨0, by simp, ?_⟩
    rw [hm]
    exact NetChain.last c p hnet hnext
  | step c p c2 rest hnet hnext hch ih =>
    simp only [chainCursors, hnext, List.mem_cons] at hm
    rcases hm with hm | hm
    · refine ⟨0, by simp, ?_⟩
      rw [hm]
      exact NetChain.step c p c2 rest hnet hnext hch
    · obtain ⟨k, hk, hchk⟩ := ih hm
      refine ⟨k + 1, by simp; omega, ?_⟩
      simpa using hchk

theorem chain_cursors_nodup {A : Type} {net : Option String → PageResponse A}
    {c : Option String} {l : List (PageResponse A)} (h : NetChain net c l) :
    (chainCursors c l).Nodup := by
  induction h with
  | last c p hnet hnext =>
    simp [chainCursors, hnext]
  | step c p c2 rest hnet hnext hch ih =>
    simp only [chainCursors, hnext]
    rw [List.nodup_cons]
    refine ⟨?_, ih⟩
    intro hmem
    obtain ⟨k, hk, hchk⟩ := chain_suffix hch hmem
    have hEq := chain_unique (NetChain.step c p c2 rest hnet hnext hch) hchk
    have hlen := congrArg List.length hEq
    simp only [List.length_cons, List.length_drop] at hlen
    omega

theorem flowActionsKey_lookup_cursor (flowId : String) (c : Option String) :
    (flowActionsKey flowId c).params.lookup "cursor" = c := by
  cases c <;> rfl

theorem flowActionsKey_inj_cursor (flowId : String) {c c2 : Option String} (h : c ≠ c2) :
    flowActionsKey flowId c ≠ flowActionsKey flowId c2 := by
  intro hEq
  apply h
  have := congrArg (fun k : CacheKey => k.params.lookup "cursor") hEq
  simpa only [flowActionsKey_lookup_cursor] using this

theorem fifteen_pos : 0 < TTL.FIFTEEN_MINUTES := by decide

theorem get_of_entry {V : Type} (s : PluginCache V) (now : Nat) (k : CacheKey) (v : V)
    (exp ins : Nat) (hd : s.disabled = false) (he : s.entries k = some ⟨v, exp, ins⟩)
    (ht : now < exp) : s.get now k = some v := by
  simp [PluginCache.get, hd, he, ht]

theorem getFlowActions_miss {A : Type} (net : Option String → PageResponse A)
    (s : PluginCache (PageResponse A)) (now : Nat) (flowId : String) (c : Option String)
    (hd : s.disabled = false) (habs : s.get now (flowActionsKey flowId c) = none) :
    getFlowActions net s now flowId c false =
      ⟨Except.ok (net c),
        PluginCache.set { s with misses := s.misses + 1 } now (flowActionsKey flowId c)
          (net c) TTL.FIFTEEN_MINUTES, true⟩ :=
  getOrFetch_miss_ok s now (flowActionsKey flowId c) (net c) TTL.FIFTEEN_MINUTES hd habs

theorem getFlowActions_hit {A : Type} (net : Option String → PageResponse A)
    (s : PluginCache (PageResponse A)) (now : Nat) (flowId : String) (c : Option String)
    (page : PageResponse A) (hd : s.disabled = false)
    (hhit : s.get now (flowActionsKey flowId c) = some page) :
    getFlowActions net s now flowId c false =
      ⟨Except.ok page, { s with hits := s.hits + 1 }, false⟩ :=
  getOrFetch_hit s now (flowActionsKey flowId c) (Except.ok (net c)) TTL.FIFTEEN_MINUTES
    page hd hhit

theorem aux_step_last {A : Type} (net : Option String → PageResponse A) (flowId : String)
    (now fuel : Nat) (s s1 : PluginCache (PageResponse A)) (cursor : Option String)
    (page : PageResponse A) (inv : Bool)
    (hr : getFlowActions net s now flowId cursor false = ⟨Except.ok page, s1, inv⟩)
    (hnext : page.next = none) :
    getAllFlowActionsAux net flowId false now (fuel + 1) s cursor =
      some (page.data, s1, 1, if inv then 1 else 0) := by
  simp [getAllFlowActionsAux, hr, hnext]

theorem aux_step_cont {A : Type} (net : Option String → PageResponse A) (flowId : String)
    (now fuel : Nat) (s s1 : PluginCache (PageResponse A)) (cursor : Option String)
    (page : PageResponse A) (inv : Bool) (c2 : String)
    (hr : getFlowActions net s now flowId cursor false = ⟨Except.ok page, s1, inv⟩)
    (hnext : page.next = some c2) (rest : List A) (s2 : PluginCache (PageResponse A))
    (fetches netCalls : Nat)
    (hrec : getAllFlowActionsAux net flowId false now fuel s1 (some c2) =
      some (rest, s2, fetches, netCalls)) :
    getAllFlowActionsAux net flowId false now (fuel + 1) s cursor =
      some (page.data ++ rest, s2, fetches + 1, netCalls + (if inv then 1 else 0)) := by
  simp [getAllFlowActionsAux, hr, hnext, hrec]

theorem runFresh {A : Type} (net : Option String → PageResponse A) (flowId : String)
    (now : Nat) {c : Option String} {pages : List (PageResponse A)}
    (hch : NetChain net c pages) :
    ∀ (fuel : Nat) (s : PluginCache (PageResponse A)), pages.length ≤ fuel →
      s.disabled = false →
      (∀ d ∈ chainCursors c pages, s.get now (flowActionsKey flowId d) = none) →
      ∃ s2, getAllFlowActionsAux net flowId false now fuel s c =
          some ((pages.map PageResponse.data).flatten, s2, pages.length, pages.length) ∧
        s2.disabled = false ∧
        (∀ d ∈ chainCursors c pages,
          s2.get now (flowActionsKey flowId d) = some (net d)) ∧
        (∀ k : CacheKey, (∀ d ∈ chainCursors c pages, k ≠ flowActionsKey flowId d) →
          s2.entries k = s.entries k) := by
  induction hch with
  | last c p hnet hnext =>
    intro fuel s hf hd hfresh
    cases fuel with
    | zero => simp at hf
    | succ f =>
      have hkc := hfresh c (by simp [chainCursors, hnext])
      have hr := getFlowActions_miss net s now flowId c hd hkc
      have hstep := aux_step_last net flowId now f s _ c (net c) true hr
        (by rw [hnet]; exact hnext)
      have hdm : ({ s with misses := s.misses + 1 } :
          PluginCache (PageResponse A)).disabled = false := hd
      refine ⟨PluginCache.set { s with misses := s.misses + 1 } now
        (flowActionsKey flowId c) (net c) TTL.FIFTEEN_MINUTES, ?_, ?_, ?_, ?_⟩
      · rw [hstep, hnet]
        simp
      · rw [set_disabled]
        exact hd
      · intro d hdmem
        simp only [chainCursors, hnext, List.mem_singleton] at hdmem
        subst hdmem
        have he := entries_set_same { s with misses := s.misses + 1 } now
          (flowActionsKey flowId d) (net d) TTL.FIFTEEN_MINUTES hdm
        exact get_of_entry _ now _ (net d) _ _ (by rw [set_disabled]; exact hd) he
          (by have := fifteen_pos; omega)
      · intro k hk
        have hkc2 : k ≠ flowActionsKey flowId c := hk c (by simp [chainCursors, hnext])
        rw [entries_set_other _ _ _ _ _ _ hkc2]
  | step c p c2 rest hnet hnext hch ih =>
    intro fuel s hf hd hfresh
    cases fuel with
    | zero => simp at hf
    | succ f =>
      have hnd := chain_cursors_nodup (NetChain.step c p c2 rest hnet hnext hch)
      simp only [chainCursors, hnext] at hnd
      rw [List.nodup_cons] at hnd
      obtain ⟨hcnotin, _⟩ := hnd
      have hkc := hfresh c (by simp [chainCursors, hnext])
      have hr := getFlowActions_miss net s now flowId c hd hkc
      have hdm : ({ s with misses := s.misses + 1 } :
          PluginCache (PageResponse A)).disabled = false := hd
      have hfresh2 : ∀ d ∈ chainCursors (some c2) rest,
          (PluginCache.set { s with misses := s.misses + 1 } now (flowActionsKey flowId c)
            (net c) TTL.FIFTEEN_MINUTES).get now (flowActionsKey flowId d) = none := by
        intro d hdmem
        have hne : d ≠ c := fun hEq => hcnotin (hEq ▸ hdmem)
        have hkne : flowActionsKey flowId d ≠ flowActionsKey flowId c :=
          flowActionsKey_inj_cursor flowId hne
        rw [get_set_other _ _ _ _ _ _ _ hkne, get_miss_bump]
        exact hfresh d (by simp [chainCursors, hnext, hdmem])
      obtain ⟨s2, hrun, hdis2, hcov2, hfr2⟩ := ih f _
        (by simp only [List.length_cons] at hf; omega) (by rw [set_disabled]; exact hd)
        hfresh2
      have hstep := aux_step_cont net flowId now f s _ c (net c) true c2 hr
        (by rw [hnet]; exact hnext) _ s2 rest.length rest.length hrun
      refine ⟨s2, ?_, hdis2, ?_, ?_⟩
      · rw [hstep, hnet]
        simp
      · intro d hdmem
        simp only [chainCursors, hnext, List.mem_cons] at hdmem
        rcases hdmem with rfl | hdmem
        · have hkavoid : ∀ e ∈ chainCursors (some c2) rest,
              flowActionsKey flowId d ≠ flowActionsKey flowId e := by
            intro e he
            exact flowActionsKey_inj_cursor flowId (fun hEq => hcnotin (hEq ▸ he))
          have hent := hfr2 (flowActionsKey flowId d) hkavoid
          have he := entries_set_same { s with misses := s.misses + 1 } now
            (flowActionsKey flowId d) (net d) TTL.FIFTEEN_MINUTES hdm
          exact get_of_entry s2 now _ (net d) _ _ hdis2 (hent.trans he)
            (by have := fifteen_pos; omega)
        · exact hcov2 d hdmem
      · intro k hk
        have h1 : ∀ d ∈ chainCursors (some c2) rest, k ≠ flowActionsKey flowId d := by
          intro d hdmem
          exact hk d (by simp [chainCursors, hnext, hdmem])
        rw [hfr2 k h1]
        have hkc2 : k ≠ flowActionsKey flowId c := hk c (by simp [chainCursors, hnext])
        rw [entries_set_other _ _ _ _ _ _ hkc2]

theorem runCached {A : Type} (net : Option String → PageResponse A) (flowId : String)
    (now : Nat) {c : Option String} {pages : List (PageResponse A)}
    (hch : NetChain net c pages) :
    ∀ (fuel : Nat) (s : PluginCache (PageResponse A)), pages.length ≤ fuel →
      s.disabled = false →
      (∀ d ∈ chainCursors c pages, s.get now (flowActionsKey flowId d) = some (net d)) →
      ∃ s2, getAllFlowActionsAux net flowId false now fuel s c =
          some ((pages.map PageResponse.data).flatten, s2, pages.length, 0) ∧
        s2.entries = s.entries ∧ s2.disabled = false := by
  induction hch with
  | last c p hnet hnext =>
    intro fuel s hf hd hcov
    cases fuel with
    | zero => simp at hf
    | succ f =>
      have hkc := hcov c (by simp [chainCursors, hnext])
      have hr := getFlowActions_hit net s now flowId c (net c) hd hkc
      have hstep := aux_step_last net flowId now f s _ c (net c) false hr
        (by rw [hnet]; exact hnext)
      refine ⟨{ s with hits := s.hits + 1 }, ?_, rfl, hd⟩
      rw [hstep, hnet]
      simp
  | step c p c2 rest hnet hnext hch ih =>
    intro fuel s hf hd hcov
    cases fuel with
    | zero => simp at hf
    | succ f =>
      have hkc := hcov c (by simp [chainCursors, hnext])
      have hr := getFlowActions_hit net s now flowId c (net c) hd hkc
      have hcov2 : ∀ d ∈ chainCursors (some c2) rest,
          ({ s with hits := s.hits + 1 } : PluginCache (PageResponse A)).get now
            (flowActionsKey flowId d) = some (net d) := by
        intro d hdmem
        rw [get_hit_bump]
        exact hcov d (by simp [chainCursors, hnext, hdmem])
      obtain ⟨s2, hrun, hent, hdis⟩ := ih f { s with hits := s.hits + 1 }
        (by simp only [List.length_cons] at hf; omega) hd hcov2
      have hstep := aux_step_cont net flowId now f s _ c (net c) false c2 hr
        (by rw [hnet]; exact hnext) _ s2 rest.length 0 hrun
      refine ⟨s2, ?_, hent, hdis⟩
      rw [hstep, hnet]
      simp

/-- C6: for an upstream yielding a finite chain of pages, `getAllFlowActions`
run on an empty cache terminates (with fuel at least the number of pages),
performs exactly one page fetch and one network producer invocation per page,
and returns the concatenation of the pages' data lists in fetch order with
intra-page order preserved and no deduplication. -/
theorem pagination_concatenation {A : Type} (net : Option String → PageResponse A)
    (flowId : String) (now fuel : Nat) (pages : List (PageResponse A))
    (hch : NetChain net none pages) (hf : pages.length ≤ fuel) :
    ∃ s2, getAllFlowActions net flowId false now fuel emptyCache =
      some ((pages.map PageResponse.data).flatten, s2, pages.length, pages.length) := by
  obtain ⟨s2, hrun, _, _, _⟩ := runFresh net flowId now hch fuel emptyCache hf rfl
    (fun d hdmem => rfl)
  exact ⟨s2, hrun⟩

/-- A concrete three-page upstream (2, 2 and 1 items) used by the pagination
witnesses. -/
def net3 : Option String → PageResponse Nat
  | none => ⟨[1, 2], some "c1"⟩
  | some "c1" => ⟨[3, 4], some "c2"⟩
  | some "c2" => ⟨[5], none⟩
  | some _ => ⟨[], none⟩

theorem chain3 :
    NetChain net3 none [⟨[1, 2], some "c1"⟩, ⟨[3, 4], some "c2"⟩, ⟨[5], none⟩] :=
  NetChain.step none ⟨[1, 2], some "c1"⟩ "c1" _ rfl rfl
    (NetChain.step (some "c1") ⟨[3, 4], some "c2"⟩ "c2" _ rfl rfl
      (NetChain.last (some "c2") ⟨[5], none⟩ rfl rfl))

/-- Witness for C6: the fake three-page sequence (2, 2, 1 items) yields the
five items in order via exactly 3 fetches and 3 network calls. -/
theorem pagination_concatenation_witness :
    ∃ s2, getAllFlowActions net3 "F" false 0 3 emptyCache =
      some ([1, 2, 3, 4, 5], s2, 3, 3) := by
  obtain ⟨s2, h⟩ := pagination_concatenation net3 "F" 0 3
    [⟨[1, 2], some "c1"⟩, ⟨[3, 4], some "c2"⟩, ⟨[5], none⟩] chain3 (by decide)
  exact ⟨s2, h⟩

/-- C7: pages are cached under cursor-qualified keys (different cursors give
different cache slots), and re-running `getAllFlowActions` immediately after
a first run from an empty cache — same time, so all TTLs unexpired, and the
same cursor chain — returns the same result with zero network producer
invocations. -/
theorem pagination_cache_independence {A : Type} :
    (∀ (flowId : String) (c c2 : Option String), c ≠ c2 →
      flowActionsKey flowId c ≠ flowActionsKey flowId c2) ∧
    ∀ (net : Option String → PageResponse A) (flowId : String) (now fuel : Nat)
      (pages : List (PageResponse A)), NetChain net none pages → pages.length ≤ fuel →
      ∃ s1 s2,
        getAllFlowActions net flowId false now fuel emptyCache =
          some ((pages.map PageResponse.data).flatten, s1, pages.length, pages.length) ∧
        getAllFlowActions net flowId false now fuel s1 =
          some ((pages.map PageResponse.data).flatten, s2, pages.length, 0) := by
  constructor
  · exact fun flowId c c2 h => flowActionsKey_inj_cursor flowId h
  · intro net flowId now fuel pages hch hf
    obtain ⟨s1, hrun1, hdis1, hcov1, _⟩ := runFresh net flowId now hch fuel emptyCache hf
      rfl (fun d hdmem => rfl)
    obtain ⟨s2, hrun2, _, _⟩ := runCached net flowId now hch fuel s1 hf hdis1 hcov1
    exact ⟨s1, s2, hrun1, hrun2⟩

/-- Witness for C7: on the three-page upstream, the first run makes 3 network
calls and the immediate second run makes 0, returning the same five items;
the keys for cursors "c1" and "c2" are distinct slots. -/
theorem pagination_cache_independence_witness :
    flowActionsKey "F" (some "c1") ≠ flowActionsKey "F" (some "c2") ∧
    ∃ s1 s2,
      getAllFlowActions net3 "F" false 0 3 emptyCache = some ([1, 2, 3, 4, 5], s1, 3, 3) ∧
      getAllFlowActions net3 "F" false 0 3 s1 = some ([1, 2, 3, 4, 5], s2, 3, 0) := by
  obtain ⟨hinj, hrun⟩ := @pagination_cache_independence Nat
  refine ⟨hinj "F" (some "c1") (some "c2") (by decide), ?_⟩
  obtain ⟨s1, s2, h1, h2⟩ := hrun net3 "F" 0 3
    [⟨[1, 2], some "c1"⟩, ⟨[3, 4], some "c2"⟩, ⟨[5], none⟩] chain3 (by decide)
  exact ⟨s1, s2, h1, h2⟩

/-- A tracked metric: its id and its `attributes.name`. -/
structure Metric where
  id : String
  name : String
deriving DecidableEq

/-- Containment of `pat` as a contiguous sublist (JS `String.includes` on the
underlying characters). -/
def listContains (pat : List Char) : List Char → Bool
  | [] => pat.isEmpty
  | c :: rest => pat.isPrefixOf (c :: rest) || listContains pat rest

/-- JS `s.includes(pat)`. -/
def strContains (s pat : String) : Bool :=
  listContains pat.data s.data

/-- JS `s.toLowerCase()`, character-wise. -/
def lowerStr (s : String) : String :=
  ⟨s.data.map Char.toLower⟩

/-- The match predicate of `findPlacedOrderMetricId`: the lowercased metric
name contains "placed order" or "order placed". -/
def placedOrderMatch (m : Metric) : Bool :=
  strContains (lowerStr m.name) "placed order" || strContains (lowerStr m.name) "order placed"

/-- `findPlacedOrderMetricId`: fetches the first metrics page
(`getMetrics()` with no cursor; pagination is never followed) and evaluates
`metrics.data.find(...)?.id || null`; the JS `|| null` maps an empty-string
id to null. -/
def findPlacedOrderMetricId (net : Option String → PageResponse Metric) : Option String :=
  match (net none).data.find? placedOrderMatch with
  | none => none
  | some m => if m.id = "" then none else some m.id

/-- The conversion-metric resolution of the `get-campaign-report` CLI command
(`cli.ts`): a truthy `--conversion-metric` value is used as given; otherwise
`findPlacedOrderMetricId` is consulted, and if it yields nothing the command
throws before any report request is issued (`Except.error` carries the thrown
message; `Except.ok` carries the metric id the report request would use). -/
def resolveConversionMetric (conversionMetric : Option String)
    (net : Option String → PageResponse Metric) : Except String String :=
  if conversionMetric.getD "" = "" then
    match findPlacedOrderMetricId net with
    | some id => Except.ok id
    | none =>
      Except.error
        "--conversion-metric is required. Use get-metrics to find available metric IDs."
  else
    Except.ok (conversionMetric.getD "")

theorem find_first {α : Type} {p : α → Bool} :
    ∀ (l1 : List α) (m : α) (l2 : List α), (∀ x ∈ l1, p x = false) → p m = true →
      (l1 ++ m :: l2).find? p = some m
  | [], m, l2, _, hm => by simp [List.find?, hm]
  | x :: l1, m, l2, hall, hm => by
    have hx : p x = false := hall x (by simp)
    simp only [List.cons_append, List.find?, hx]
    exact find_first l1 m l2 (fun y hy => hall y (by simp [hy])) hm

/-- Counterexample to C10: a first metrics page holding a single matching
metric whose id is the empty string.  The claim says the id of the first
matching metric is returned and the CLI error is thrown exactly when no
matching metric exists; the code instead returns null (JS `"" || null`) and
the CLI throws although a matching metric is on the page. -/
theorem placed_order_empty_id_collision :
    placedOrderMatch ⟨"", "Placed Order"⟩ = true ∧
    findPlacedOrderMetricId (fun _ => ⟨[⟨"", "Placed Order"⟩], none⟩) = none ∧
    resolveConversionMetric none (fun _ => ⟨[⟨"", "Placed Order"⟩], none⟩) =
      Except.error
        "--conversion-metric is required. Use get-metrics to find available metric IDs." :=
  ⟨by decide, rfl, rfl⟩

/-- C10 as amended: `findPlacedOrderMetricId` inspects only the first metrics
page; with no `--conversion-metric` the CLI command throws the required-metric
error exactly when the lookup yields nothing, which happens when no metric on
the first page matches "placed order"/"order placed" case-insensitively — or
when the first matching metric's id is the empty string (JS `|| null`
coercion); a first match with a non-empty id is returned and used, and a
truthy explicit `--conversion-metric` is used as given without lookup. -/
theorem campaign_report_conversion_metric (net : Option String → PageResponse Metric) :
    (findPlacedOrderMetricId net = findPlacedOrderMetricId (fun _ => net none)) ∧
    (resolveConversionMetric none net =
        Except.error
          "--conversion-metric is required. Use get-metrics to find available metric IDs." ↔
      findPlacedOrderMetricId net = none) ∧
    ((∀ m ∈ (net none).data, placedOrderMatch m = false) →
      findPlacedOrderMetricId net = none) ∧
    (∀ (l1 : List Metric) (m : Metric) (l2 : List Metric),
      (net none).data = l1 ++ m :: l2 → (∀ x ∈ l1, placedOrderMatch x = false) →
      placedOrderMatch m = true → m.id ≠ "" →
      findPlacedOrderMetricId net = some m.id ∧
        resolveConversionMetric none net = Except.ok m.id) ∧
    (∀ (l1 : List Metric) (m : Metric) (l2 : List Metric),
      (net none).data = l1 ++ m :: l2 → (∀ x ∈ l1, placedOrderMatch x = false) →
      placedOrderMatch m = true → m.id = "" → findPlacedOrderMetricId net = none) ∧
    (∀ id : String, id ≠ "" →
      resolveConversionMetric (some id) net = Except.ok id) := by
  refine ⟨rfl, ?_, ?_, ?_, ?_, ?_⟩
  · cases h : findPlacedOrderMetricId net <;> simp [resolveConversionMetric, h]
  · intro hall
    unfold findPlacedOrderMetricId
    rw [List.find?_eq_none.mpr (fun x hx => by rw [hall x hx]; simp)]
  · intro l1 m l2 hdata hall hm hid
    have hfind : findPlacedOrderMetricId net = some m.id := by
      unfold findPlacedOrderMetricId
      rw [hdata, find_first l1 m l2 hall hm]
      simp [hid]
    exact ⟨hfind, by simp [resolveConversionMetric, hfind]⟩
  · intro l1 m l2 hdata hall hm hid
    unfold findPlacedOrderMetricId
    rw [hdata, find_first l1 m l2 hall hm]
    simp [hid]
  · intro id hid
    simp [resolveConversionMetric, hid]

/-- Witness for the amended C10: on a first page holding a non-matching
metric followed by "Placed Order" with id "ABC", the lookup returns "ABC" and
the CLI command proceeds with it. -/
theorem campaign_report_conversion_metric_witness :
    findPlacedOrderMetricId
        (fun _ => ⟨[⟨"m1", "Opened Email"⟩, ⟨"ABC", "Placed Order"⟩], none⟩) =
      some "ABC" ∧
    resolveConversionMetric none
        (fun _ => ⟨[⟨"m1", "Opened Email"⟩, ⟨"ABC", "Placed Order"⟩], none⟩) =
      Except.ok "ABC" := by
  obtain ⟨h1, h2, h3, h4, h5, h6⟩ := campaign_report_conversion_metric
    (fun _ => ⟨[⟨"m1", "Opened Email"⟩, ⟨"ABC", "Placed Order"⟩], none⟩)
  exact h4 [⟨"m1", "Opened Email"⟩] ⟨"ABC", "Placed Order"⟩ [] rfl
    (by decide) (by decide) (by decide)
